import Mathlib

/-!
# gdrive-admin-copy: a verification development of `main.go`

A shallow embedding of the enumeration / filter / consolidate pipeline of
`main.go`.  Go strings are Lean `String`s (sequences of code points; for valid
UTF-8 text the byte-wise substring test of Go and the code-point-wise one used
here agree).  Calls to the outside world (the file system, the Admin SDK, the
Drive API) are explicit state passing over a small model of the identity's
storage plus response oracles that say which calls fail.
-/

namespace GdriveAdminCopy

/-! ## Data model (the fields of `drive.File` / `drive.User` that the program uses) -/

/-- The `drive.User` fields requested by the program: `owners(displayName, emailAddress)`. -/
structure Owner where
  DisplayName : String
  EmailAddress : String
  deriving DecidableEq, Repr

/-- The `drive.File` fields read or written by the program. -/
structure File where
  Id : String
  Name : String
  MimeType : String
  Parents : List String
  Owners : List Owner
  deriving DecidableEq, Repr

/-- The `drive.FileList` fields: one page of results and the continuation token. -/
structure FileList where
  Files : List File
  NextPageToken : String
  deriving DecidableEq, Repr

/-! ## `strings.Contains` -/

/-- Go `strings.HasPrefix`, on character lists: `needle` is read off the front of `hay`. -/
def hasPrefixChars : List Char → List Char → Bool
  | _, [] => true
  | [], _ :: _ => false
  | h :: hs, n :: ns => h == n && hasPrefixChars hs ns

/-- Go `strings.Index(s, substr) >= 0`, on character lists: some position of `hay`
starts an occurrence of `needle`. -/
def containsChars : List Char → List Char → Bool
  | [], needle => hasPrefixChars [] needle
  | h :: hs, needle => hasPrefixChars (h :: hs) needle || containsChars hs needle

/-- Go `strings.Contains(s, substr)`. -/
def stringsContains (s substr : String) : Bool :=
  containsChars s.data substr.data

/-! ## The owner filter: the two nested `for` loops of `listAndCopySharedFiles` (lines 186-193) -/

/-- The inner loop `for _, subString := range skipSubstrings` for one owner: the first
substring contained in the owner's address, which triggers `continue skip_file`. -/
def skipScanSubstrings (owner : Owner) : List String → Option String
  | [] => none
  | subString :: rest =>
    if stringsContains owner.EmailAddress subString then some subString
    else skipScanSubstrings owner rest

/-- The outer loop `for _, owner := range f.Owners`: `some subString` when the
`continue skip_file` branch is taken (with the substring that is logged), `none` when both
loops run to completion. -/
def skipScanOwners (skipSubstrings : List String) : List Owner → Option String
  | [] => none
  | owner :: rest =>
    match skipScanSubstrings owner skipSubstrings with
    | some subString => some subString
    | none => skipScanOwners skipSubstrings rest

/-- The `ownerInfo` computed at lines 179-184. -/
def ownerInfo (f : File) : String :=
  match f.Owners with
  | o :: _ => o.DisplayName ++ " (" ++ o.EmailAddress ++ ")"
  | [] => "Unknown Owner"

/-- The text passed to `file.WriteString` at line 196. -/
def recordLine (f : File) : String :=
  "File ID: " ++ f.Id ++ ", Name: " ++ f.Name ++ ", Owner: " ++ ownerInfo f ++ "\n"

/-! ## The storage of one impersonated identity and the responses of the outside world -/

/-- One identity's Drive, as far as the two queries of the program can see it. -/
structure Drive where
  /-- the entries of the identity's own storage, in the store's native return order -/
  files : List File
  /-- the answer of the store to `sharedWithMe=true`, cut into pages by the store -/
  sharedPages : List (List File)
  deriving DecidableEq, Repr

/-- Which calls to the outside world fail during one run of `listAndCopySharedFiles`
(`none` / `.ok` is success, the string is the text of the Go `error`). -/
structure Faults where
  /-- result of `os.Create(fileName)` -/
  osCreate : Option String
  /-- result of `srv.Files.List().Q("sharedWithMe=true")...Do()` -/
  listShared : Option String
  /-- result of `srv.Files.List().Q(query).Fields("files(id)").Do()` in `createOrGetFolder` -/
  listFolder : Option String
  /-- result of `srv.Files.Create(folder).Do()`: an error, or the id the store gives the new folder -/
  createFolder : Except String String
  /-- the k-th call of `file.WriteString` (from 0): `none` writes the whole text, `some (n, e)`
  fails with error `e` after the first `n` characters were written -/
  writeString : Nat → Option (Nat × String)
  /-- the k-th call of `srv.Files.Copy(f.Id, target).Do()` (from 0) -/
  copy : Nat → Option String

/-- The `drive.Service` handed to `listAndCopySharedFiles`: the identity's storage and the
behaviour of the calls made through it. -/
structure Service where
  drive : Drive
  faults : Faults

/-- The query of `createOrGetFolder`:
`name = 'my_copied_shared_files' and mimeType = 'application/vnd.google-apps.folder' and 'root' in parents`. -/
def folderQuery (f : File) : Bool :=
  f.Name == "my_copied_shared_files" &&
  f.MimeType == "application/vnd.google-apps.folder" &&
  f.Parents.contains "root"

/-- The store's answer to the folder query: every matching entry, in store order. -/
def filesListFolder (d : Drive) : FileList :=
  { Files := d.files.filter folderQuery, NextPageToken := "" }

/-- The store's answer to one `Files.List().Q("sharedWithMe=true")...Do()` with no page token
set: the first page, and a continuation token when more pages follow. -/
def filesListShared (d : Drive) : FileList :=
  match d.sharedPages with
  | [] => { Files := [], NextPageToken := "" }
  | page :: rest => { Files := page, NextPageToken := if rest.isEmpty then "" else "next" }

/-- The store's `Files.Create(folder)`: the new entry, with the id chosen by the store, is
part of the storage from then on. -/
def filesCreate (d : Drive) (folder : File) (id : String) : Drive :=
  { d with files := d.files ++ [{ folder with Id := id }] }

/-! ## `createOrGetFolder` (lines 128-150) -/

/-- The function `createOrGetFolder`: the folder id or the error, and the storage afterwards. -/
def createOrGetFolder (d : Drive) (listFolder : Option String)
    (createFolder : Except String String) : Except String String × Drive :=
  match listFolder with
  | some err => (.error ("error checking for folder: " ++ err), d)
  | none =>
    match (filesListFolder d).Files with
    | first :: _ => (.ok first.Id, d)
    | [] =>
      let folder : File :=
        { Id := "", Name := "my_copied_shared_files",
          MimeType := "application/vnd.google-apps.folder",
          Parents := ["root"], Owners := [] }
      match createFolder with
      | .error err => (.error ("error creating folder: " ++ err), d)
      | .ok id => (.ok id, filesCreate d folder id)

/-! ## `listAndCopySharedFiles` (lines 152-213) -/

/-- What one run has done so far. -/
structure Run where
  /-- the contents of `<email>_shared_files.txt` -/
  artifact : String
  /-- the calls `srv.Files.Copy(id, target)` made, as `(id, target.Parents)`, in order -/
  copies : List (String × List String)
  /-- the `log.Printf` messages, in order -/
  log : List String
  /-- the number of `file.WriteString` calls made -/
  writes : Nat
  deriving DecidableEq, Repr

/-- The state right after `os.Create` truncated the artifact. -/
def Run.start : Run := { artifact := "", copies := [], log := [], writes := 0 }

/-- The loop `skip_file: for _, f := range files.Files` (lines 176-211).  The result is the
state when the loop ends or returns, and the error of the `return` inside the loop if any. -/
def processFiles (faults : Faults) (email : String) (skipSubstrings : List String)
    (folderID : String) : List File → Run → Run × Option String
  | [], st => (st, none)
  | f :: rest, st =>
    match skipScanOwners skipSubstrings f.Owners with
    | some subString =>
      processFiles faults email skipSubstrings folderID rest
        { st with log := st.log ++ ["Skipping file " ++ f.Name ++ " for user " ++ email ++
                                    ": Owner is from " ++ subString ++ " domain"] }
    | none =>
      match faults.writeString st.writes with
      | some (n, err) =>
        ({ st with artifact := st.artifact ++ String.mk ((recordLine f).data.take n),
                   writes := st.writes + 1 },
         some ("error writing to file: " ++ err))
      | none =>
        let st1 : Run := { st with artifact := st.artifact ++ recordLine f,
                                   writes := st.writes + 1 }
        let msg : String :=
          match faults.copy st1.copies.length with
          | some err => "Unable to target file " ++ f.Name ++ " for user " ++ email ++ ": " ++ err
          | none => "Copied file " ++ f.Name ++ " for user " ++ email ++ "\n"
        processFiles faults email skipSubstrings folderID rest
          { st1 with copies := st1.copies ++ [(f.Id, [folderID])], log := st1.log ++ [msg] }

/-- The result of one call of `listAndCopySharedFiles`. -/
structure Outcome where
  /-- the returned `error` (`none` is `nil`) -/
  err : Option String
  /-- the path given to `os.Create` -/
  fileName : String
  /-- what the call wrote, copied and logged -/
  run : Run
  /-- the identity's storage after the call -/
  drive : Drive
  deriving DecidableEq, Repr

/-- The function `listAndCopySharedFiles`. -/
def listAndCopySharedFiles (srv : Service) (email : String)
    (skipSubstrings : List String) : Outcome :=
  let fileName := email ++ "_shared_files.txt"
  match srv.faults.osCreate with
  | some err =>
    { err := some ("error creating file: " ++ err), fileName := fileName,
      run := Run.start, drive := srv.drive }
  | none =>
    match srv.faults.listShared with
    | some err =>
      { err := some ("error listing files: " ++ err), fileName := fileName,
        run := Run.start, drive := srv.drive }
    | none =>
      let files := filesListShared srv.drive
      match createOrGetFolder srv.drive srv.faults.listFolder srv.faults.createFolder with
      | (.error err, d) =>
        { err := some ("error getting or creating folder: " ++ err), fileName := fileName,
          run := Run.start, drive := d }
      | (.ok folderID, d) =>
        let r := processFiles srv.faults email skipSubstrings folderID files.Files Run.start
        { err := r.2, fileName := fileName, run := r.1, drive := d }

/-! ## `userList` (lines 112-126) -/

/-- The `admin.User` field the program reads. -/
structure User where
  PrimaryEmail : String
  deriving DecidableEq, Repr

/-- The call `call.Pages(ctx, func(page) ...)` over a directory listing given as its sequence
of page fetches (each yields the users of the page or fails): the value of `emails` when
`Pages` returns, and the error it returns. -/
def userListPages : List (Except String (List User)) → List String → List String × Option String
  | [], emails => (emails, none)
  | .error err :: _, emails => (emails, some err)
  | .ok page :: rest, emails => userListPages rest (emails ++ page.map User.PrimaryEmail)

/-- The function `userList`; the Go `nil` slice is `[]`. -/
def userList (pages : List (Except String (List User))) : List String × Option String :=
  match userListPages pages [] with
  | (_, some err) => ([], some ("error listing users: " ++ err))
  | (emails, none) => (emails, none)

/-! ## The batch loop of `main` (lines 48-67) -/

/-- What the batch loop does, in order. -/
inductive Event where
  /-- the call of `drive.NewService` with `clientConfig.Subject = email` -/
  | newService (email : String)
  /-- the call `listAndCopySharedFiles(driveService, email, ...)`, with its result -/
  | listAndCopy (email : String) (result : Outcome)
  /-- a `log.Printf` message -/
  | logged (msg : String)
  /-- a `fmt.Printf` message -/
  | printed (msg : String)
  deriving DecidableEq, Repr

/-- The loop `for _, email := range users` of `main`; `newService i email` is the result of
the `drive.NewService` call of iteration `i`. -/
def mainLoop (newService : Nat → String → Except String Service)
    (userSubstringsToSkip : List String) : Nat → List String → List Event
  | _, [] => []
  | i, email :: rest =>
    match newService i email with
    | .error err =>
      [Event.newService email,
       Event.logged ("Unable to impersonate user " ++ email ++ ": " ++ err)] ++
        mainLoop newService userSubstringsToSkip (i + 1) rest
    | .ok driveService =>
      let result := listAndCopySharedFiles driveService email userSubstringsToSkip
      [Event.newService email, Event.listAndCopy email result,
       match result.err with
       | some err =>
         Event.logged ("Unable to list and copy shared files for user " ++ email ++ ": " ++ err)
       | none => Event.printed ("Shared files for " ++ email ++ " saved and copied.\n")] ++
        mainLoop newService userSubstringsToSkip (i + 1) rest

/-! ## `getCLIArgs` (lines 70-93) -/

/-- Go `strings.Split(s, ",")` on the characters still to read, `cur` being the piece read
so far, reversed. -/
def splitCommaChars : List Char → List Char → List String
  | [], cur => [String.mk cur.reverse]
  | c :: cs, cur =>
    if c = Char.ofNat 44 then String.mk cur.reverse :: splitCommaChars cs []
    else splitCommaChars cs (c :: cur)

/-- Go `strings.Split(s, ",")`. -/
def stringsSplitComma (s : String) : List String :=
  splitCommaChars s.data []

/-- The struct `CLIArgs`. -/
structure CLIArgs where
  credentialsPath : String
  adminUser : String
  userSubstringsToSkip : List String
  deriving DecidableEq, Repr

/-- The function `getCLIArgs`, from the values of the three flags. -/
def getCLIArgs (credentialsPath adminUser userSubstringsToSkip : String) :
    Except String CLIArgs :=
  if credentialsPath = "" then
    .error "please provide the path to the credentials file using the -credentials flag"
  else if adminUser = "" then
    .error "please provide the admin email for impersonation using the -admin flag"
  else
    .ok { credentialsPath := credentialsPath, adminUser := adminUser,
          userSubstringsToSkip :=
            if userSubstringsToSkip ≠ "" then stringsSplitComma userSubstringsToSkip else [] }

/-! ## Observations used to state the properties -/

/-- Concatenation of texts, in order. -/
def concatLines : List String → String
  | [] => ""
  | l :: ls => l ++ concatLines ls

/-- The files of a listing that the owner filter lets through, in listing order. -/
def notSkipped (skipSubstrings : List String) (files : List File) : List File :=
  files.filter fun f => (skipScanOwners skipSubstrings f.Owners).isNone

/-- The identities for which `drive.NewService` was called, in order. -/
def attempted : List Event → List String
  | [] => []
  | Event.newService email :: rest => email :: attempted rest
  | _ :: rest => attempted rest

/-- The identities for which `listAndCopySharedFiles` was called, in order. -/
def invoked : List Event → List String
  | [] => []
  | Event.listAndCopy email _ :: rest => email :: invoked rest
  | _ :: rest => invoked rest

/-! ## Concrete inputs -/

/-- A file record as the shared listing returns it (id, name, owners). -/
def sharedFile (id name : String) (owners : List Owner) : File :=
  { Id := id, Name := name, MimeType := "", Parents := [], Owners := owners }

/-- No call fails; a created folder gets the id `"F"`. -/
def noFaults : Faults :=
  { osCreate := none, listShared := none, listFolder := none, createFolder := .ok "F",
    writeString := fun _ => none, copy := fun _ => none }

/-- Scenario A of the specification: file 1 owned by `bob@spammer.com`, file 2 by `carol@co`. -/
def filesA : List File :=
  [sharedFile "1" "one" [{ DisplayName := "Bob", EmailAddress := "bob@spammer.com" }],
   sharedFile "2" "two" [{ DisplayName := "Carol", EmailAddress := "carol@co" }]]

/-- The service of scenario A: an empty own storage, one page of shared files. -/
def serviceA : Service :=
  { drive := { files := [], sharedPages := [filesA] }, faults := noFaults }

/-- Scenario C of the specification: two shared files, the second copy call fails. -/
def serviceC : Service :=
  { drive := { files := [], sharedPages := [filesA] },
    faults := { noFaults with copy := fun k => if k = 1 then some "quota" else none } }

/-- Two shared files, the write of the second line fails after 5 characters. -/
def serviceW : Service :=
  { drive := { files := [], sharedPages := [filesA] },
    faults := { noFaults with
                writeString := fun k => if k = 1 then some (5, "disk full") else none } }

/-- A shared listing that the store cuts into two pages of one file each. -/
def serviceP : Service :=
  { drive := { files := [],
               sharedPages := [[sharedFile "1" "one" []], [sharedFile "2" "two" []]] },
    faults := noFaults }

/-- A file without owners. -/
def orphan : File := sharedFile "9" "nine" []

/-- The two files of scenario A followed by a file without owners, in one page. -/
def serviceO : Service :=
  { drive := { files := [], sharedPages := [filesA ++ [orphan]] }, faults := noFaults }

/-- An identity's storage with nothing in it. -/
def emptyDrive : Drive := { files := [], sharedPages := [] }

/-- Client construction fails for `bad@co` and succeeds, with the service of scenario A, for
every other identity. -/
def newServiceB (_ : Nat) (email : String) : Except String Service :=
  if email = "bad@co" then .error "unauthorized_client" else .ok serviceA

/-! ## Lemmas on `strings.Contains` and the owner filter -/

theorem hasPrefixChars_iff (hay needle : List Char) :
    hasPrefixChars hay needle = true ↔ needle <+: hay := by
  induction hay generalizing needle with
  | nil =>
    cases needle with
    | nil => simp [hasPrefixChars]
    | cons n ns => simp [hasPrefixChars]
  | cons h hs ih =>
    cases needle with
    | nil => simp [hasPrefixChars]
    | cons n ns =>
      simp only [hasPrefixChars, Bool.and_eq_true, beq_iff_eq, ih, List.cons_prefix_cons]
      constructor
      · rintro ⟨rfl, h2⟩; exact ⟨rfl, h2⟩
      · rintro ⟨rfl, h2⟩; exact ⟨rfl, h2⟩

theorem containsChars_iff (hay needle : List Char) :
    containsChars hay needle = true ↔ needle <:+: hay := by
  induction hay with
  | nil =>
    simp only [containsChars, hasPrefixChars_iff]
    constructor
    · intro h; exact h.isInfix
    · intro h
      have := List.eq_nil_of_infix_nil h
      subst this
      exact List.prefix_refl _
  | cons h hs ih =>
    simp only [containsChars, Bool.or_eq_true, hasPrefixChars_iff, ih, List.infix_cons_iff]

theorem stringsContains_iff (s substr : String) :
    stringsContains s substr = true ↔ substr.data <:+: s.data :=
  containsChars_iff _ _

theorem stringsContains_empty (s : String) : stringsContains s "" = true :=
  (stringsContains_iff s "").2 List.nil_infix

theorem skipScanSubstrings_isSome (owner : Owner) (S : List String) :
    (skipScanSubstrings owner S).isSome = true ↔
      ∃ s ∈ S, s.data <:+: owner.EmailAddress.data := by
  induction S with
  | nil => simp [skipScanSubstrings]
  | cons s rest ih =>
    unfold skipScanSubstrings
    by_cases h : stringsContains owner.EmailAddress s = true
    · simp only [h, if_true, Option.isSome_some, true_iff]
      exact ⟨s, List.mem_cons_self _ _, (stringsContains_iff _ _).1 h⟩
    · simp only [h, if_false, ih, List.mem_cons, Bool.false_eq_true]
      constructor
      · rintro ⟨t, ht, hin⟩; exact ⟨t, Or.inr ht, hin⟩
      · rintro ⟨t, ht | ht, hin⟩
        · subst ht; exact absurd ((stringsContains_iff _ _).2 hin) h
        · exact ⟨t, ht, hin⟩

theorem skipScanOwners_isSome (S : List String) (owners : List Owner) :
    (skipScanOwners S owners).isSome = true ↔
      ∃ o ∈ owners, ∃ s ∈ S, s.data <:+: o.EmailAddress.data := by
  induction owners with
  | nil => simp [skipScanOwners]
  | cons o rest ih =>
    unfold skipScanOwners
    cases h : skipScanSubstrings o S with
    | some sub =>
      have h1 : (skipScanSubstrings o S).isSome = true := by rw [h]; rfl
      simp only [Option.isSome_some, true_iff]
      exact ⟨o, List.mem_cons_self _ _, (skipScanSubstrings_isSome o S).1 h1⟩
    | none =>
      have h1 : ¬ ∃ s ∈ S, s.data <:+: o.EmailAddress.data := by
        rw [← skipScanSubstrings_isSome, h]; simp
      simp only [ih, List.mem_cons]
      constructor
      · rintro ⟨p, hp, hin⟩; exact ⟨p, Or.inr hp, hin⟩
      · rintro ⟨p, hp | hp, hin⟩
        · subst hp; exact absurd hin h1
        · exact ⟨p, hp, hin⟩

/-! ## Lemmas on the file loop -/

theorem notSkipped_cons_some (S : List String) (f : File) (rest : List File) (sub : String)
    (h : skipScanOwners S f.Owners = some sub) :
    notSkipped S (f :: rest) = notSkipped S rest := by
  simp [notSkipped, List.filter, h]

theorem notSkipped_cons_none (S : List String) (f : File) (rest : List File)
    (h : skipScanOwners S f.Owners = none) :
    notSkipped S (f :: rest) = f :: notSkipped S rest := by
  simp [notSkipped, List.filter, h]

theorem processFiles_writes_ok (faults : Faults) (email : String) (S : List String)
    (folderID : String) (hw : ∀ k, faults.writeString k = none) (files : List File) (st : Run) :
    (processFiles faults email S folderID files st).2 = none ∧
    (processFiles faults email S folderID files st).1.artifact =
      st.artifact ++ concatLines ((notSkipped S files).map recordLine) ∧
    (processFiles faults email S folderID files st).1.copies =
      st.copies ++ (notSkipped S files).map (fun f => (f.Id, [folderID])) := by
  induction files generalizing st with
  | nil => simp [processFiles, notSkipped, concatLines]
  | cons f rest ih =>
    cases h : skipScanOwners S f.Owners with
    | some sub =>
      rw [notSkipped_cons_some S f rest sub h]
      simp only [processFiles, h]
      exact ih _
    | none =>
      rw [notSkipped_cons_none S f rest h]
      simp only [processFiles, h, hw]
      obtain ⟨h1, h2, h3⟩ := ih
        { artifact := st.artifact ++ recordLine f,
          copies := st.copies ++ [(f.Id, [folderID])],
          log := st.log ++
            [match faults.copy st.copies.length with
             | some err => "Unable to target file " ++ f.Name ++ " for user " ++ email ++ ": " ++ err
             | none => "Copied file " ++ f.Name ++ " for user " ++ email ++ "\n"],
          writes := st.writes + 1 }
      refine ⟨h1, ?_, ?_⟩
      · rw [h2]; simp [concatLines, String.append_assoc]
      · rw [h3]; simp

theorem processFiles_write_fails (faults : Faults) (email : String) (S : List String)
    (folderID : String) (files : List File) (st : Run) (k n : Nat) (e : String) (g : File)
    (hprev : ∀ j, j < k → faults.writeString (st.writes + j) = none)
    (hk : faults.writeString (st.writes + k) = some (n, e))
    (hg : (notSkipped S files)[k]? = some g) :
    (processFiles faults email S folderID files st).2 = some ("error writing to file: " ++ e) ∧
    (processFiles faults email S folderID files st).1.artifact =
      st.artifact ++ concatLines (((notSkipped S files).take k).map recordLine) ++
        String.mk ((recordLine g).data.take n) ∧
    (processFiles faults email S folderID files st).1.copies =
      st.copies ++ ((notSkipped S files).take k).map (fun f => (f.Id, [folderID])) ∧
    (processFiles faults email S folderID files st).1.writes = st.writes + k + 1 := by
  induction files generalizing st k with
  | nil => simp [notSkipped] at hg
  | cons f rest ih =>
    cases h : skipScanOwners S f.Owners with
    | some sub =>
      rw [notSkipped_cons_some S f rest sub h] at hg ⊢
      simp only [processFiles, h]
      exact ih _ k hprev hk hg
    | none =>
      rw [notSkipped_cons_none S f rest h] at hg ⊢
      cases k with
      | zero =>
        simp only [List.getElem?_cons_zero, Option.some.injEq] at hg
        subst hg
        simp only [Nat.add_zero] at hk
        simp [processFiles, h, hk, concatLines]
      | succ k =>
        have h0 : faults.writeString st.writes = none := by
          simpa using hprev 0 (Nat.succ_pos k)
        simp only [List.getElem?_cons_succ] at hg
        simp only [processFiles, h, h0]
        obtain ⟨h1, h2, h3, h4⟩ := ih
          { artifact := st.artifact ++ recordLine f,
            copies := st.copies ++ [(f.Id, [folderID])],
            log := st.log ++
              [match faults.copy st.copies.length with
               | some err =>
                 "Unable to target file " ++ f.Name ++ " for user " ++ email ++ ": " ++ err
               | none => "Copied file " ++ f.Name ++ " for user " ++ email ++ "\n"],
            writes := st.writes + 1 } k
          (by
            intro j hj
            have := hprev (j + 1) (Nat.succ_lt_succ hj)
            simpa [Nat.add_assoc, Nat.add_comm 1 j] using this)
          (by simpa [Nat.add_assoc, Nat.add_comm 1 k] using hk)
          hg
        refine ⟨h1, ?_, ?_, ?_⟩
        · rw [h2]; simp [concatLines, String.append_assoc]
        · rw [h3]; simp
        · rw [h4]; simp only []; omega

theorem processFiles_copies_mem (faults : Faults) (email : String) (S : List String)
    (folderID : String) (files : List File) (st : Run) :
    ∀ c ∈ (processFiles faults email S folderID files st).1.copies,
      c ∈ st.copies ∨
        ∃ f ∈ files, skipScanOwners S f.Owners = none ∧ c = (f.Id, [folderID]) := by
  induction files generalizing st with
  | nil => intro c hc; exact Or.inl (by simpa [processFiles] using hc)
  | cons f rest ih =>
    intro c hc
    cases h : skipScanOwners S f.Owners with
    | some sub =>
      simp only [processFiles, h] at hc
      rcases ih _ c hc with h1 | ⟨g, hg, h2, h3⟩
      · exact Or.inl h1
      · exact Or.inr ⟨g, List.mem_cons_of_mem _ hg, h2, h3⟩
    | none =>
      cases hw : faults.writeString st.writes with
      | some p =>
        obtain ⟨n, e⟩ := p
        simp only [processFiles, h, hw] at hc
        exact Or.inl hc
      | none =>
        simp only [processFiles, h, hw] at hc
        rcases ih _ c hc with h1 | ⟨g, hg, h2, h3⟩
        · simp only [List.mem_append, List.mem_singleton] at h1
          rcases h1 with h1 | h1
          · exact Or.inl h1
          · exact Or.inr ⟨f, List.mem_cons_self _ _, h, h1⟩
        · exact Or.inr ⟨g, List.mem_cons_of_mem _ hg, h2, h3⟩

theorem listAndCopySharedFiles_loop (srv : Service) (email : String) (S : List String)
    (folderID : String) (hcreate : srv.faults.osCreate = none)
    (hlist : srv.faults.listShared = none)
    (hfolder : (createOrGetFolder srv.drive srv.faults.listFolder srv.faults.createFolder).1 =
      .ok folderID) :
    (listAndCopySharedFiles srv email S).err =
      (processFiles srv.faults email S folderID (filesListShared srv.drive).Files Run.start).2 ∧
    (listAndCopySharedFiles srv email S).run =
      (processFiles srv.faults email S folderID (filesListShared srv.drive).Files Run.start).1 := by
  unfold listAndCopySharedFiles
  rcases hc : createOrGetFolder srv.drive srv.faults.listFolder srv.faults.createFolder
    with ⟨r, d⟩
  rw [hc] at hfolder
  simp only at hfolder
  subst hfolder
  simp [hcreate, hlist]

theorem listAndCopySharedFiles_copies_mem (srv : Service) (email : String) (S : List String) :
    ∀ c ∈ (listAndCopySharedFiles srv email S).run.copies,
      ∃ f ∈ (filesListShared srv.drive).Files, skipScanOwners S f.Owners = none ∧ c.1 = f.Id := by
  intro c hc
  unfold listAndCopySharedFiles at hc
  cases hcreate : srv.faults.osCreate with
  | some err => simp [hcreate, Run.start] at hc
  | none =>
    cases hlist : srv.faults.listShared with
    | some err => simp [hcreate, hlist, Run.start] at hc
    | none =>
      rcases hf : createOrGetFolder srv.drive srv.faults.listFolder srv.faults.createFolder
        with ⟨r, d⟩
      cases r with
      | error err => simp [hcreate, hlist, hf, Run.start] at hc
      | ok folderID =>
        simp only [hcreate, hlist, hf] at hc
        rcases processFiles_copies_mem srv.faults email S folderID _ Run.start c hc
          with h1 | ⟨f, hf1, hf2, hf3⟩
        · simp [Run.start] at h1
        · exact ⟨f, hf1, hf2, by rw [hf3]⟩

theorem skipScanOwners_empty_substring (S : List String) (hS : "" ∈ S) (owners : List Owner)
    (hne : owners ≠ []) : (skipScanOwners S owners).isSome = true := by
  rw [skipScanOwners_isSome]
  cases owners with
  | nil => exact absurd rfl hne
  | cons o rest => exact ⟨o, List.mem_cons_self _ _, "", hS, List.nil_infix⟩

theorem notSkipped_empty_substring (S : List String) (hS : "" ∈ S) (files : List File) :
    notSkipped S files = files.filter (fun f => f.Owners.isEmpty) := by
  unfold notSkipped
  apply List.filter_congr
  intro f _
  cases ho : f.Owners with
  | nil => simp [skipScanOwners]
  | cons o rest =>
    have h := skipScanOwners_empty_substring S hS (o :: rest) (List.cons_ne_nil _ _)
    cases hs : skipScanOwners S (o :: rest) with
    | none => rw [hs] at h; simp at h
    | some sub => simp

theorem concatLines_append (xs ys : List String) :
    concatLines (xs ++ ys) = concatLines xs ++ concatLines ys := by
  induction xs with
  | nil => simp [concatLines]
  | cons x xs ih => simp [concatLines, ih, String.append_assoc]

/-! ## The claims -/

/-- C1: the owner filter takes the `continue skip_file` branch for a file exactly when some
owner's address contains some skip substring; and one turn of the file loop on `f` leaves the
write count, the copy list and the artifact untouched exactly in that case. -/
theorem C1_skip_iff_owner_matches (faults : Faults) (email folderID : String) (f : File)
    (S : List String) (st : Run) :
    ((skipScanOwners S f.Owners).isSome = true ↔
      ∃ o ∈ f.Owners, ∃ s ∈ S, s.data <:+: o.EmailAddress.data) ∧
    (((processFiles faults email S folderID [f] st).1.writes = st.writes ∧
      (processFiles faults email S folderID [f] st).1.copies = st.copies ∧
      (processFiles faults email S folderID [f] st).1.artifact = st.artifact ∧
      (processFiles faults email S folderID [f] st).2 = none) ↔
      ∃ o ∈ f.Owners, ∃ s ∈ S, s.data <:+: o.EmailAddress.data) := by
  refine ⟨skipScanOwners_isSome S f.Owners, ?_⟩
  rw [← skipScanOwners_isSome]
  cases h : skipScanOwners S f.Owners with
  | some sub => simp [processFiles, h]
  | none =>
    cases hw : faults.writeString st.writes with
    | some p =>
      obtain ⟨n, e⟩ := p
      simp [processFiles, h, hw]
    | none => simp [processFiles, h, hw]

/-- C6: whatever the skip list, a file with no owners is not skipped by
`listAndCopySharedFiles`: the filter does not fire on it, its ownerInfo is "Unknown Owner" and
its line is "File ID: {id}, Name: {name}, Owner: Unknown Owner"; a turn of the file loop on it
always makes the write call, whatever calls fail; and when the output file opens, the listing
and the folder resolution succeed and every write succeeds, the artifact holds that line, and
the copy list that file, between what the files before it and the files after it contribute. -/
theorem C6_no_owner_never_skipped (srv : Service) (email : String) (S : List String)
    (folderID id name mimeType : String) (parents : List String) (pre post : List File)
    (hcreate : srv.faults.osCreate = none) (hlist : srv.faults.listShared = none)
    (hfolder : (createOrGetFolder srv.drive srv.faults.listFolder srv.faults.createFolder).1 =
      .ok folderID)
    (hw : ∀ k, srv.faults.writeString k = none)
    (hfiles : (filesListShared srv.drive).Files =
      pre ++ { Id := id, Name := name, MimeType := mimeType, Parents := parents,
               Owners := [] } :: post) :
    skipScanOwners S
      ({ Id := id, Name := name, MimeType := mimeType, Parents := parents, Owners := [] } :
        File).Owners = none ∧
    notSkipped S
      [{ Id := id, Name := name, MimeType := mimeType, Parents := parents, Owners := [] }] =
      [{ Id := id, Name := name, MimeType := mimeType, Parents := parents, Owners := [] }] ∧
    ownerInfo { Id := id, Name := name, MimeType := mimeType, Parents := parents, Owners := [] } =
      "Unknown Owner" ∧
    recordLine { Id := id, Name := name, MimeType := mimeType, Parents := parents, Owners := [] } =
      "File ID: " ++ id ++ ", Name: " ++ name ++ ", Owner: Unknown Owner\n" ∧
    (∀ (faults : Faults) (st : Run),
      (processFiles faults email S folderID
        [{ Id := id, Name := name, MimeType := mimeType, Parents := parents, Owners := [] }]
        st).1.writes = st.writes + 1) ∧
    (listAndCopySharedFiles srv email S).err = none ∧
    (listAndCopySharedFiles srv email S).run.artifact =
      concatLines ((notSkipped S pre).map recordLine) ++
        ("File ID: " ++ id ++ ", Name: " ++ name ++ ", Owner: Unknown Owner\n") ++
        concatLines ((notSkipped S post).map recordLine) ∧
    (listAndCopySharedFiles srv email S).run.copies =
      (notSkipped S pre).map (fun f => (f.Id, [folderID])) ++
        (id, [folderID]) :: (notSkipped S post).map (fun f => (f.Id, [folderID])) := by
  have hline : recordLine
      { Id := id, Name := name, MimeType := mimeType, Parents := parents, Owners := [] } =
      "File ID: " ++ id ++ ", Name: " ++ name ++ ", Owner: Unknown Owner\n" := by
    simp only [recordLine, ownerInfo, String.append_assoc]
    rfl
  have hkeep : notSkipped S
      (pre ++ { Id := id, Name := name, MimeType := mimeType, Parents := parents,
                Owners := [] } :: post) =
      notSkipped S pre ++
        { Id := id, Name := name, MimeType := mimeType, Parents := parents, Owners := [] } ::
          notSkipped S post := by
    simp [notSkipped, List.filter_append, List.filter_cons, skipScanOwners]
  obtain ⟨herr, hrun⟩ := listAndCopySharedFiles_loop srv email S folderID hcreate hlist hfolder
  obtain ⟨h1, h2, h3⟩ := processFiles_writes_ok srv.faults email S folderID hw
    (filesListShared srv.drive).Files Run.start
  refine ⟨rfl, ?_, rfl, hline, ?_, ?_, ?_, ?_⟩
  · simp [notSkipped, skipScanOwners]
  · intro faults st
    cases hws : faults.writeString st.writes with
    | some p =>
      obtain ⟨n, e⟩ := p
      simp [processFiles, skipScanOwners, hws]
    | none => simp [processFiles, skipScanOwners, hws]
  · rw [herr]; exact h1
  · rw [hrun, h2, hfiles, hkeep, ← hline]
    simp [Run.start, concatLines_append, concatLines, String.append_assoc]
  · rw [hrun, h3, hfiles, hkeep]
    simp [Run.start]

/-- A listing of the two owned files of scenario A followed by a file without owners, with the
skip list ["", "spammer.com"]: the call returns nil, and the line of the owner-less file is
recorded, with owner "Unknown Owner", and the file is copy-attempted. -/
theorem C6_orphan_recorded :
    (listAndCopySharedFiles serviceO "alice@co" ["", "spammer.com"]).err = none ∧
    (listAndCopySharedFiles serviceO "alice@co" ["", "spammer.com"]).run.artifact =
      "File ID: 9, Name: nine, Owner: Unknown Owner\n" ∧
    (listAndCopySharedFiles serviceO "alice@co" ["", "spammer.com"]).run.copies =
      [("9", ["F"])] :=
  have h := C6_no_owner_never_skipped serviceO "alice@co" ["", "spammer.com"] "F" "9" "nine" ""
    [] filesA [] rfl rfl rfl (fun _ => rfl) rfl
  ⟨h.2.2.2.2.2.1, h.2.2.2.2.2.2.1.trans (by decide), h.2.2.2.2.2.2.2.trans (by decide)⟩

/-- C2: when the output file opens, the listing and the folder resolution succeed and every
write succeeds, the artifact is exactly the concatenation, in listing order, of the line
"File ID: {id}, Name: {name}, Owner: {ownerInfo}\n" of each file the owner filter does not skip,
and the copy calls are exactly those files, in the same order, into the resolved folder. -/
theorem C2_artifact_and_copies (srv : Service) (email : String) (S : List String)
    (folderID : String) (files : List File)
    (hcreate : srv.faults.osCreate = none) (hlist : srv.faults.listShared = none)
    (hfiles : (filesListShared srv.drive).Files = files)
    (hfolder : (createOrGetFolder srv.drive srv.faults.listFolder srv.faults.createFolder).1 =
      .ok folderID)
    (hw : ∀ k, srv.faults.writeString k = none) :
    (listAndCopySharedFiles srv email S).run.artifact =
      concatLines ((notSkipped S files).map fun f =>
        "File ID: " ++ f.Id ++ ", Name: " ++ f.Name ++ ", Owner: " ++
          (match f.Owners with
           | o :: _ => o.DisplayName ++ " (" ++ o.EmailAddress ++ ")"
           | [] => "Unknown Owner") ++ "\n") ∧
    (listAndCopySharedFiles srv email S).run.copies =
      (notSkipped S files).map (fun f => (f.Id, [folderID])) := by
  have hline : (fun f : File =>
        "File ID: " ++ f.Id ++ ", Name: " ++ f.Name ++ ", Owner: " ++
          (match f.Owners with
           | o :: _ => o.DisplayName ++ " (" ++ o.EmailAddress ++ ")"
           | [] => "Unknown Owner") ++ "\n") = recordLine := by
    funext f
    obtain ⟨i, n, m, ps, os⟩ := f
    cases os <;> rfl
  rw [hline]
  obtain ⟨_, hrun⟩ := listAndCopySharedFiles_loop srv email S folderID hcreate hlist hfolder
  obtain ⟨_, h2, h3⟩ :=
    processFiles_writes_ok srv.faults email S folderID hw files Run.start
  rw [hrun, hfiles]
  refine ⟨?_, ?_⟩
  · rw [h2]; simp [Run.start]
  · rw [h3]; simp [Run.start]

/-- Scenario A: skip list ["spammer.com"], file 1 owned by bob@spammer.com and file 2 by
carol@co: exactly one line, for id 2, and only file 2 is copy-attempted. -/
theorem C2_scenario_A :
    (listAndCopySharedFiles serviceA "alice@co" ["spammer.com"]).run.artifact =
      "File ID: 2, Name: two, Owner: Carol (carol@co)\n" ∧
    (listAndCopySharedFiles serviceA "alice@co" ["spammer.com"]).run.copies = [("2", ["F"])] :=
  ⟨(C2_artifact_and_copies serviceA "alice@co" ["spammer.com"] "F" filesA
      rfl rfl rfl rfl (fun _ => rfl)).1.trans (by decide),
   (C2_artifact_and_copies serviceA "alice@co" ["spammer.com"] "F" filesA
      rfl rfl rfl rfl (fun _ => rfl)).2.trans (by decide)⟩

/-- C3: if the output file opens, the listing and the folder resolution succeed and all writes
succeed, then whatever copies fail the call returns nil, and the artifact and the sequence of
copy calls are those of the run in which every copy succeeds. -/
theorem C3_copy_failure_not_fatal (srv : Service) (email : String) (S : List String)
    (folderID : String)
    (hcreate : srv.faults.osCreate = none) (hlist : srv.faults.listShared = none)
    (hfolder : (createOrGetFolder srv.drive srv.faults.listFolder srv.faults.createFolder).1 =
      .ok folderID)
    (hw : ∀ k, srv.faults.writeString k = none) :
    (listAndCopySharedFiles srv email S).err = none ∧
    (listAndCopySharedFiles srv email S).run.artifact =
      (listAndCopySharedFiles
        { srv with faults := { srv.faults with copy := fun _ => none } } email S).run.artifact ∧
    (listAndCopySharedFiles srv email S).run.copies =
      (listAndCopySharedFiles
        { srv with faults := { srv.faults with copy := fun _ => none } } email S).run.copies := by
  obtain ⟨herr, hrun⟩ := listAndCopySharedFiles_loop srv email S folderID hcreate hlist hfolder
  obtain ⟨_, hrun2⟩ := listAndCopySharedFiles_loop
    { srv with faults := { srv.faults with copy := fun _ => none } } email S folderID
    hcreate hlist hfolder
  obtain ⟨h1, h2, h3⟩ := processFiles_writes_ok srv.faults email S folderID hw
    (filesListShared srv.drive).Files Run.start
  obtain ⟨_, k2, k3⟩ := processFiles_writes_ok
    { srv.faults with copy := fun _ => none } email S folderID hw
    (filesListShared srv.drive).Files Run.start
  rw [herr, hrun, hrun2]
  exact ⟨h1, h2.trans k2.symm, h3.trans k3.symm⟩

/-- Scenario C: two files, the copy of the second fails: both lines are recorded, both files
are copy-attempted and the call returns nil. -/
theorem C3_scenario_C :
    (listAndCopySharedFiles serviceC "bob@co" []).err = none ∧
    (listAndCopySharedFiles serviceC "bob@co" []).run.artifact =
      "File ID: 1, Name: one, Owner: Bob (bob@spammer.com)\n" ++
      "File ID: 2, Name: two, Owner: Carol (carol@co)\n" ∧
    (listAndCopySharedFiles serviceC "bob@co" []).run.copies = [("1", ["F"]), ("2", ["F"])] :=
  ⟨(C3_copy_failure_not_fatal serviceC "bob@co" [] "F" rfl rfl rfl (fun _ => rfl)).1,
   (C3_copy_failure_not_fatal serviceC "bob@co" [] "F" rfl rfl rfl
      (fun _ => rfl)).2.1.trans (by decide),
   (C3_copy_failure_not_fatal serviceC "bob@co" [] "F" rfl rfl rfl
      (fun _ => rfl)).2.2.trans (by decide)⟩

/-- C8: if the writes of the first `k` non-skipped files succeed and the write of the line of
the next non-skipped file `g` fails, the call returns an error, the copy calls are exactly the
first `k` non-skipped files (so neither `g` nor any later file is copy-attempted), the artifact
holds exactly their lines followed by whatever part of the line of `g` the failed write left,
and no further write is made. -/
theorem C8_write_failure_fatal (srv : Service) (email : String) (S : List String)
    (folderID : String) (k n : Nat) (e : String) (g : File)
    (hcreate : srv.faults.osCreate = none) (hlist : srv.faults.listShared = none)
    (hfolder : (createOrGetFolder srv.drive srv.faults.listFolder srv.faults.createFolder).1 =
      .ok folderID)
    (hprev : ∀ j, j < k → srv.faults.writeString j = none)
    (hk : srv.faults.writeString k = some (n, e))
    (hg : (notSkipped S (filesListShared srv.drive).Files)[k]? = some g) :
    (listAndCopySharedFiles srv email S).err = some ("error writing to file: " ++ e) ∧
    (listAndCopySharedFiles srv email S).run.copies =
      ((notSkipped S (filesListShared srv.drive).Files).take k).map
        (fun f => (f.Id, [folderID])) ∧
    (listAndCopySharedFiles srv email S).run.artifact =
      concatLines (((notSkipped S (filesListShared srv.drive).Files).take k).map recordLine) ++
        String.mk ((recordLine g).data.take n) ∧
    (listAndCopySharedFiles srv email S).run.writes = k + 1 := by
  obtain ⟨herr, hrun⟩ := listAndCopySharedFiles_loop srv email S folderID hcreate hlist hfolder
  obtain ⟨h1, h2, h3, h4⟩ := processFiles_write_fails srv.faults email S folderID
    (filesListShared srv.drive).Files Run.start k n e g
    (by intro j hj; simpa [Run.start] using hprev j hj)
    (by simpa [Run.start] using hk) hg
  rw [herr, hrun]
  refine ⟨h1, ?_, ?_, ?_⟩
  · rw [h3]; simp [Run.start]
  · rw [h2]; simp [Run.start]
  · rw [h4]; simp [Run.start]

/-- Two non-skipped files, the second write fails after 5 characters: an error is returned,
only file 1 is copy-attempted, and the artifact is the line of file 1 plus "File ". -/
theorem C8_second_write_fails :
    (listAndCopySharedFiles serviceW "bob@co" []).err =
      some "error writing to file: disk full" ∧
    (listAndCopySharedFiles serviceW "bob@co" []).run.copies = [("1", ["F"])] ∧
    (listAndCopySharedFiles serviceW "bob@co" []).run.artifact =
      "File ID: 1, Name: one, Owner: Bob (bob@spammer.com)\nFile " ∧
    (listAndCopySharedFiles serviceW "bob@co" []).run.writes = 2 :=
  have h := C8_write_failure_fatal serviceW "bob@co" [] "F" 1 5 "disk full"
    (sharedFile "2" "two" [{ DisplayName := "Carol", EmailAddress := "carol@co" }])
    rfl rfl rfl (by decide) rfl (by decide)
  ⟨h.1.trans (by decide), h.2.1.trans (by decide), h.2.2.1.trans (by decide), h.2.2.2⟩

/-- C4: two calls of `createOrGetFolder` in sequence that both succeed return the same folder
id, the second call leaves the storage as the first left it (it creates nothing), and the
number of entries matching the folder query afterwards is the number before, or one if there
was none. -/
theorem C4_folder_resolution_idempotent (d0 : Drive) (l1 l2 : Option String)
    (c1 c2 : Except String String) (id1 id2 : String)
    (h1 : (createOrGetFolder d0 l1 c1).1 = .ok id1)
    (h2 : (createOrGetFolder (createOrGetFolder d0 l1 c1).2 l2 c2).1 = .ok id2) :
    id2 = id1 ∧
    (createOrGetFolder (createOrGetFolder d0 l1 c1).2 l2 c2).2 = (createOrGetFolder d0 l1 c1).2 ∧
    ((createOrGetFolder (createOrGetFolder d0 l1 c1).2 l2 c2).2.files.filter folderQuery).length =
      max 1 (d0.files.filter folderQuery).length := by
  cases l1 with
  | some err => simp [createOrGetFolder] at h1
  | none =>
    cases l2 with
    | some err => simp [createOrGetFolder] at h2
    | none =>
      cases hq : d0.files.filter folderQuery with
      | cons first more =>
        simp only [createOrGetFolder, filesListFolder, hq, Except.ok.injEq] at h1 h2 ⊢
        refine ⟨h2.symm.trans h1, trivial, ?_⟩
        simp only [List.length_cons]
        omega
      | nil =>
        cases c1 with
        | error err => simp [createOrGetFolder, filesListFolder, hq] at h1
        | ok id =>
          have hnew : folderQuery
              { Id := id, Name := "my_copied_shared_files",
                MimeType := "application/vnd.google-apps.folder",
                Parents := ["root"], Owners := [] } = true := by
            simp [folderQuery]
          simp only [createOrGetFolder, filesListFolder, hq, filesCreate, List.filter_append,
            List.nil_append, List.filter_cons, List.filter_nil, hnew, if_true,
            Except.ok.injEq] at h1 h2 ⊢
          refine ⟨h2.symm.trans h1, trivial, ?_⟩
          simp

/-- Scenario B: from a storage with no folder, the first call creates the folder "F"; the
second call returns "F" again and exactly one folder exists afterwards. -/
theorem C4_scenario_B :
    (createOrGetFolder emptyDrive none (.ok "F")).1 = .ok "F" ∧
    (createOrGetFolder (createOrGetFolder emptyDrive none (.ok "F")).2 none (.ok "G")).1 =
      .ok "F" ∧
    ((createOrGetFolder (createOrGetFolder emptyDrive none (.ok "F")).2 none
        (.ok "G")).2.files.filter folderQuery).length = 1 :=
  ⟨rfl, rfl,
   (C4_folder_resolution_idempotent emptyDrive none none (.ok "F") (.ok "G") "F" "F"
      rfl rfl).2.2.trans (by decide)⟩

/-- C5: whatever client constructions fail and whatever `listAndCopySharedFiles` returns, the
batch loop calls `drive.NewService` for every identity of the list, once each and in list
order, and calls `listAndCopySharedFiles` for exactly the identities whose construction
succeeded, in list order. -/
theorem C5_every_identity_attempted (newService : Nat → String → Except String Service)
    (S : List String) (users : List String) (i : Nat) :
    attempted (mainLoop newService S i users) = users ∧
    invoked (mainLoop newService S i users) =
      ((users.enumFrom i).filter (fun p => (newService p.1 p.2).toBool)).map Prod.snd := by
  induction users generalizing i with
  | nil => exact ⟨rfl, rfl⟩
  | cons email rest ih =>
    obtain ⟨ih1, ih2⟩ := ih (i + 1)
    cases h : newService i email with
    | error err =>
      simp [mainLoop, h, attempted, invoked, ih1, ih2, List.filter_cons, Except.toBool]
    | ok srv =>
      cases herr : (listAndCopySharedFiles srv email S).err <;>
        simp [mainLoop, h, herr, attempted, invoked, ih1, ih2, List.filter_cons, Except.toBool]

/-- C9: if every page fetch succeeds `userList` returns the primary addresses of all users of
all pages in page order and within-page order; if a page fetch fails (after any number of
successful ones) it returns an error and the nil list. -/
theorem C9_userList_all_or_nothing (pages pre : List (List User)) (e : String)
    (post : List (Except String (List User))) :
    userList (pages.map Except.ok) = (pages.flatten.map User.PrimaryEmail, none) ∧
    userList (pre.map Except.ok ++ Except.error e :: post) =
      ([], some ("error listing users: " ++ e)) := by
  have key : ∀ (ps : List (List User)) (rest : List (Except String (List User)))
      (acc : List String),
      userListPages (ps.map Except.ok ++ rest) acc =
        userListPages rest (acc ++ ps.flatten.map User.PrimaryEmail) := by
    intro ps
    induction ps with
    | nil => intro rest acc; simp
    | cons p ps ih =>
      intro rest acc
      have h := ih rest (acc ++ p.map User.PrimaryEmail)
      simp only [List.map_cons, List.cons_append, userListPages, List.flatten_cons,
        List.map_append]
      rw [← List.append_assoc]
      exact h
  constructor
  · have h := key pages [] []
    simp only [List.append_nil, List.nil_append] at h
    simp [userList, h, userListPages]
  · have h := key pre (Except.error e :: post) []
    simp [userList, h, userListPages]

/-- The batch of a@co, bad@co, c@co where client construction fails for bad@co: all three
are attempted in order and `listAndCopySharedFiles` runs for a@co and c@co. -/
theorem C5_failure_in_the_middle :
    attempted (mainLoop newServiceB [] 0 ["a@co", "bad@co", "c@co"]) =
      ["a@co", "bad@co", "c@co"] ∧
    invoked (mainLoop newServiceB [] 0 ["a@co", "bad@co", "c@co"]) = ["a@co", "c@co"] :=
  ⟨(C5_every_identity_attempted newServiceB [] ["a@co", "bad@co", "c@co"] 0).1,
   (C5_every_identity_attempted newServiceB [] ["a@co", "bad@co", "c@co"] 0).2.trans
     (by decide)⟩

/-- C7 (what the code does): with a shared listing of two pages of one file each, neither file
being skipped by the filter, the call follows no continuation token: it returns nil having
recorded and copy-attempted the file of the first page only. -/
theorem C7_only_first_page_processed :
    serviceP.drive.sharedPages.flatten = [sharedFile "1" "one" [], sharedFile "2" "two" []] ∧
    notSkipped [] serviceP.drive.sharedPages.flatten = serviceP.drive.sharedPages.flatten ∧
    (filesListShared serviceP.drive).NextPageToken ≠ "" ∧
    (listAndCopySharedFiles serviceP "bob@co" []).err = none ∧
    (listAndCopySharedFiles serviceP "bob@co" []).run.copies = [("1", ["F"])] ∧
    (listAndCopySharedFiles serviceP "bob@co" []).run.artifact =
      "File ID: 1, Name: one, Owner: Unknown Owner\n" := by
  decide

/-- C10: if the skip list contains the empty string, every file with at least one owner is
skipped; the non-skipped files of any listing are exactly its files with no owner; every file
the call copy-attempts is a file of the listing with no owner; and when the output file opens,
the listing and the folder resolution succeed and every write succeeds, the files with no
owner are exactly the ones recorded and copy-attempted. -/
theorem C10_empty_substring_skips_owned (srv : Service) (email : String) (S : List String)
    (hS : "" ∈ S) :
    (∀ f : File, f.Owners ≠ [] → (skipScanOwners S f.Owners).isSome = true) ∧
    (∀ files : List File, notSkipped S files = files.filter (fun f => f.Owners.isEmpty)) ∧
    (∀ c ∈ (listAndCopySharedFiles srv email S).run.copies,
      ∃ f ∈ (filesListShared srv.drive).Files, f.Owners = [] ∧ c.1 = f.Id) ∧
    (∀ folderID : String, srv.faults.osCreate = none → srv.faults.listShared = none →
      (createOrGetFolder srv.drive srv.faults.listFolder srv.faults.createFolder).1 =
        .ok folderID →
      (∀ k, srv.faults.writeString k = none) →
      (listAndCopySharedFiles srv email S).run.artifact =
        concatLines ((((filesListShared srv.drive).Files).filter
          (fun f => f.Owners.isEmpty)).map recordLine) ∧
      (listAndCopySharedFiles srv email S).run.copies =
        (((filesListShared srv.drive).Files).filter (fun f => f.Owners.isEmpty)).map
          (fun f => (f.Id, [folderID]))) := by
  refine ⟨fun f hf => skipScanOwners_empty_substring S hS f.Owners hf,
    notSkipped_empty_substring S hS, ?_, ?_⟩
  · intro c hc
    obtain ⟨f, hf1, hf2, hf3⟩ := listAndCopySharedFiles_copies_mem srv email S c hc
    refine ⟨f, hf1, ?_, hf3⟩
    by_contra hne
    have h := skipScanOwners_empty_substring S hS f.Owners hne
    rw [hf2] at h
    simp at h
  · intro folderID hcreate hlist hfolder hw
    obtain ⟨_, hrun⟩ := listAndCopySharedFiles_loop srv email S folderID hcreate hlist hfolder
    obtain ⟨_, h2, h3⟩ := processFiles_writes_ok srv.faults email S folderID hw
      (filesListShared srv.drive).Files Run.start
    rw [hrun, ← notSkipped_empty_substring S hS]
    refine ⟨?_, ?_⟩
    · rw [h2]; simp [Run.start]
    · rw [h3]; simp [Run.start]

/-- The flag value "a.com," makes `getCLIArgs` produce the skip list ["a.com", ""]; with it,
of the two owned files of scenario A and a file without owners only the latter is recorded and
copy-attempted. -/
theorem C10_trailing_comma :
    getCLIArgs "creds.json" "admin@co" "a.com," =
      .ok { credentialsPath := "creds.json", adminUser := "admin@co",
            userSubstringsToSkip := ["a.com", ""] } ∧
    (listAndCopySharedFiles serviceO "alice@co" ["a.com", ""]).run.artifact =
      "File ID: 9, Name: nine, Owner: Unknown Owner\n" ∧
    (listAndCopySharedFiles serviceO "alice@co" ["a.com", ""]).run.copies = [("9", ["F"])] :=
  have h := (C10_empty_substring_skips_owned serviceO "alice@co" ["a.com", ""]
    (by decide)).2.2.2 "F" rfl rfl rfl (fun _ => rfl)
  ⟨rfl, h.1.trans (by decide), h.2.trans (by decide)⟩

end GdriveAdminCopy
